import Mathlib

/-!
Verification of the chat-bot-practice-langchain repository.

The Python sources are shallowly embedded: pure functions become Lean
functions over `List Char` (Python `str`), fallible operations return
`Except`/`Option`, and the I/O boundary (aiohttp transport, the SQL
database, the LLM backend) is passed in explicitly as data so that every
code path of the embedded functions is a total Lean function.
-/

namespace ChatBotSpec

/-! ## app/services/api_tools.py -/

/-- Supported HTTP methods (api_tools.py `HttpMethod`). -/
inductive HttpMethod where
  | GET
  | POST
  | PUT
  | DELETE
  | PATCH
  deriving DecidableEq, Repr

/-- `APIRequest` (api_tools.py lines 20-33): the validated request model
produced by `APIRequest(**api_data)`. -/
structure APIRequest where
  url : List Char
  method : HttpMethod := .GET
  timeout : Nat := 30
  deriving DecidableEq, Repr

/-- `APIResponse` (api_tools.py lines 36-42). `data` holds the rendered JSON
body when `response.json()` succeeded, `text` the raw body text. -/
structure APIResponse where
  status_code : Nat
  data : Option (List Char) := none
  text : Option (List Char) := none
  error : Option (List Char) := none
  success : Bool
  deriving DecidableEq, Repr

/-- What the aiohttp transport does for one request, as observed by
`make_request`: either an HTTP response arrives (with status code, the JSON
body when parseable, the raw body text and the reason phrase), or the
request raises an `aiohttp.ClientError`, or some other exception. -/
inductive TransportOutcome where
  | httpResponse (status : Nat) (jsonData : Option (List Char)) (body : List Char) (reason : List Char)
  | clientError (msg : List Char)
  | unexpectedError (msg : List Char)
  deriving DecidableEq, Repr

/-- `APIToolsService.make_request` (api_tools.py lines 61-133).
On a received response: `data` is the JSON body or `None` on parse failure
(lines 97-100), `success = 200 <= status < 300` (line 109), and on failure
`error = f"HTTP {status}: {reason}"` (line 116).  Both `except` branches
(lines 120-133) return a result with `status_code = 0`, `success = False`
and a prefixed error message instead of raising. -/
def make_request (outcome : TransportOutcome) : APIResponse :=
  match outcome with
  | .httpResponse status jsonData body reason =>
      let ok := decide (200 ≤ status ∧ status < 300)
      { status_code := status
        data := jsonData
        text := some body
        success := ok
        error := if ok then none
                 else some ("HTTP ".toList ++ (toString status).toList ++ ": ".toList ++ reason) }
  | .clientError msg =>
      { status_code := 0, error := some ("Client error: ".toList ++ msg), success := false }
  | .unexpectedError msg =>
      { status_code := 0, error := some ("Unexpected error: ".toList ++ msg), success := false }

/-- C1: for every transport outcome, `make_request` yields a total result:
a transport-level exception becomes `status_code = 0`, `success = false` and a
non-empty `error`; for a received HTTP response, `success` is true iff
`200 ≤ status < 300`, and `error` is set (non-empty) exactly when `success`
is false. -/
theorem c1_make_request_total_result (o : TransportOutcome) :
    ((∃ m, o = .clientError m ∨ o = .unexpectedError m) →
      (make_request o).status_code = 0 ∧ (make_request o).success = false ∧
      ∃ e, (make_request o).error = some e ∧ e ≠ []) ∧
    (∀ s d b r, o = .httpResponse s d b r →
      ((make_request o).success = true ↔ (200 ≤ s ∧ s < 300)) ∧
      ((make_request o).error = none ↔ (make_request o).success = true) ∧
      ((make_request o).success = false →
        ∃ e, (make_request o).error = some e ∧ e ≠ [])) := by
  constructor
  · rintro ⟨m, rfl | rfl⟩ <;>
      exact ⟨rfl, rfl, _, rfl, by simp⟩
  · rintro s d b r rfl
    by_cases h : 200 ≤ s ∧ s < 300
    · refine ⟨?_, ?_, ?_⟩
      · simp [make_request, h]
      · simp [make_request, h]
      · intro hf
        simp [make_request, h] at hf
    · refine ⟨?_, ?_, ?_⟩
      · simp [make_request, h]
      · simp [make_request, h]
      · intro _
        refine ⟨"HTTP ".toList ++ (toString s).toList ++ ": ".toList ++ r, ?_, ?_⟩
        · simp [make_request, h]
        · simp

/-- Witness for C1 at concrete inputs: a connection error and a 404. -/
theorem c1_witness :
    ((make_request (.clientError "Cannot connect to host".toList)).status_code = 0 ∧
      (make_request (.clientError "Cannot connect to host".toList)).success = false ∧
      ∃ e, (make_request (.clientError "Cannot connect to host".toList)).error = some e ∧ e ≠ []) ∧
    ((make_request (.httpResponse 404 none "nope".toList "Not Found".toList)).success = true ↔
      (200 ≤ 404 ∧ 404 < 300)) := by
  refine ⟨(c1_make_request_total_result _).1 ⟨_, Or.inl rfl⟩, ?_⟩
  exact ((c1_make_request_total_result _).2 404 none "nope".toList "Not Found".toList rfl).1

/-- The literal marker `"API_CALL:"` looked for by the parser
(api_tools.py lines 156 and 160). -/
def marker : List Char := "API_CALL:".toList

/-- The suffix of `text` that follows the first occurrence of the marker,
mirroring `text[text.find("API_CALL:") + len("API_CALL:"):]` (api_tools.py
lines 160-161); `none` when `"API_CALL:" not in text` (line 156). -/
def afterMarker : List Char → Option (List Char)
  | [] => none
  | c :: cs =>
      if marker.isPrefixOf (c :: cs) then some ((c :: cs).drop marker.length)
      else afterMarker cs

/-- `should_make_api_call` (api_tools.py lines 191-200): `"API_CALL:" in text`. -/
def should_make_api_call (text : List Char) : Bool :=
  (afterMarker text).isSome

/-- Python `str.strip()`: remove leading and trailing whitespace
(api_tools.py line 161). -/
def pyStrip (cs : List Char) : List Char :=
  ((cs.dropWhile Char.isWhitespace).reverse.dropWhile Char.isWhitespace).reverse

/-- The brace-counting scan of api_tools.py lines 164-173: starting from
running count `count` and position `i`, return `json_end` — one past the `}`
that brings the count to zero — or `none` when the loop ends without that
(`json_end == -1`, line 175). -/
def findBraceEnd : List Char → Int → Nat → Option Nat
  | [], _, _ => none
  | c :: cs, count, i =>
      if c = '{' then findBraceEnd cs (count + 1) (i + 1)
      else if c = '}' then
        if count - 1 = 0 then some (i + 1) else findBraceEnd cs (count - 1) (i + 1)
      else findBraceEnd cs count (i + 1)

/-- api_tools.py lines 154-178: locate the marker, strip the remainder, run the
brace scan and cut the candidate JSON substring `json_part[:json_end]`;
`none` when the marker is absent or the braces never balance. -/
def extract_json_str (text : List Char) : Option (List Char) :=
  match afterMarker text with
  | none => none
  | some tail =>
      let jsonPart := pyStrip tail
      match findBraceEnd jsonPart 0 0 with
      | none => none
      | some jsonEnd => some (jsonPart.take jsonEnd)

/-- `parse_api_request_from_text` (api_tools.py lines 142-188).  The trailing
`json.loads` + `APIRequest(**api_data)` step (lines 181-184, whose failures the
`except` clause turns into `None`) is abstracted as `decode`. -/
def parse_api_request_from_text (decode : List Char → Option APIRequest)
    (text : List Char) : Option APIRequest :=
  (extract_json_str text).bind decode

/-- The contribution of one character to the brace count. -/
def braceDelta (c : Char) : Int :=
  if c = '{' then 1 else if c = '}' then -1 else 0

/-- Net brace depth of a character list. -/
def netDepth : List Char → Int
  | [] => 0
  | c :: cs => braceDelta c + netDepth cs

/-- A bracket-balanced block: begins with `{`, has net depth zero, and every
proper non-empty prefix keeps strictly positive depth — so its final `}` is the
matching outer one. -/
def IsBlock (b : List Char) : Prop :=
  b.headD ' ' = '{' ∧ netDepth b = 0 ∧
    ∀ n, n < b.length → 0 < n → 0 < netDepth (b.take n)

instance : DecidablePred IsBlock := fun b => by
  unfold IsBlock
  infer_instance

theorem braceDelta_eq_rbrace {c : Char} (h : braceDelta c < 0) : c = '}' := by
  by_cases h1 : c = '{'
  · simp [braceDelta, h1] at h
  · by_cases h2 : c = '}'
    · exact h2
    · simp [braceDelta, h1, h2] at h

theorem netDepth_append (l₁ l₂ : List Char) :
    netDepth (l₁ ++ l₂) = netDepth l₁ + netDepth l₂ := by
  induction l₁ with
  | nil => simp [netDepth]
  | cons c cs ih => simp [netDepth, ih]; ring

theorem netDepth_take_cons (c : Char) (cs : List Char) (n : Nat) :
    netDepth ((c :: cs).take (n + 1)) = braceDelta c + netDepth (cs.take n) := rfl

theorem braceDelta_lbrace : braceDelta '{' = 1 := by decide

theorem braceDelta_rbrace : braceDelta '}' = -1 := by decide

theorem braceDelta_other {c : Char} (h1 : c ≠ '{') (h2 : c ≠ '}') : braceDelta c = 0 := by
  simp [braceDelta, h1, h2]

theorem findBraceEnd_eq_none (cs : List Char) :
    ∀ (d : Int) (i : Nat),
      (∀ n, n < cs.length → cs.getD n ' ' = '}' → d + netDepth (cs.take (n + 1)) ≠ 0) →
      findBraceEnd cs d i = none := by
  induction cs with
  | nil => intro d i _; rfl
  | cons c cs ih =>
      intro d i h
      by_cases h1 : c = '{'
      · subst h1
        rw [findBraceEnd, if_pos rfl]
        refine ih (d + 1) (i + 1) fun n hn hc => ?_
        have h' := h (n + 1) (by simpa using hn) (by simpa using hc)
        rw [netDepth_take_cons, braceDelta_lbrace] at h'
        intro hcontra
        apply h'
        omega
      · by_cases h2 : c = '}'
        · subst h2
          have hd := h 0 (by simp) (by simp)
          rw [netDepth_take_cons, braceDelta_rbrace] at hd
          simp only [List.take_zero, netDepth] at hd
          rw [findBraceEnd, if_neg (by decide), if_pos rfl, if_neg (by omega)]
          refine ih (d - 1) (i + 1) fun n hn hc => ?_
          have h' := h (n + 1) (by simpa using hn) (by simpa using hc)
          rw [netDepth_take_cons, braceDelta_rbrace] at h'
          intro hcontra
          apply h'
          omega
        · rw [findBraceEnd, if_neg h1, if_neg h2]
          refine ih d (i + 1) fun n hn hc => ?_
          have h' := h (n + 1) (by simpa using hn) (by simpa using hc)
          rw [netDepth_take_cons, braceDelta_other h1 h2] at h'
          intro hcontra
          apply h'
          omega

theorem findBraceEnd_eq_some (cs : List Char) :
    ∀ (n : Nat) (d : Int) (i : Nat),
      n < cs.length → cs.getD n ' ' = '}' →
      d + netDepth (cs.take (n + 1)) = 0 →
      (∀ m, m < n → cs.getD m ' ' = '}' → d + netDepth (cs.take (m + 1)) ≠ 0) →
      findBraceEnd cs d i = some (i + n + 1) := by
  induction cs with
  | nil => intro n d i hn; simp at hn
  | cons c cs ih =>
      intro n d i hn hc h0 hm
      cases n with
      | zero =>
          have hcc : c = '}' := by simpa using hc
          subst hcc
          rw [netDepth_take_cons, braceDelta_rbrace] at h0
          simp only [List.take_zero, netDepth] at h0
          rw [findBraceEnd, if_neg (by decide), if_pos rfl, if_pos (by omega)]
      | succ n =>
          by_cases h1 : c = '{'
          · subst h1
            rw [findBraceEnd, if_pos rfl]
            rw [netDepth_take_cons, braceDelta_lbrace] at h0
            have key := ih n (d + 1) (i + 1) (by simpa using hn) (by simpa using hc)
              (by omega)
              (fun m hmn hmc => by
                have h' := hm (m + 1) (by omega) (by simpa using hmc)
                rw [netDepth_take_cons, braceDelta_lbrace] at h'
                intro hcontra
                apply h'
                omega)
            rw [key]
            congr 1
            omega
          · by_cases h2 : c = '}'
            · subst h2
              have hd := hm 0 (by omega) (by simp)
              rw [netDepth_take_cons, braceDelta_rbrace] at hd
              simp only [List.take_zero, netDepth] at hd
              rw [findBraceEnd, if_neg (by decide), if_pos rfl, if_neg (by omega)]
              rw [netDepth_take_cons, braceDelta_rbrace] at h0
              have key := ih n (d - 1) (i + 1) (by simpa using hn) (by simpa using hc)
                (by omega)
                (fun m hmn hmc => by
                  have h' := hm (m + 1) (by omega) (by simpa using hmc)
                  rw [netDepth_take_cons, braceDelta_rbrace] at h'
                  intro hcontra
                  apply h'
                  omega)
              rw [key]
              congr 1
              omega
            · rw [findBraceEnd, if_neg h1, if_neg h2]
              rw [netDepth_take_cons, braceDelta_other h1 h2] at h0
              have key := ih n d (i + 1) (by simpa using hn) (by simpa using hc)
                (by omega)
                (fun m hmn hmc => by
                  have h' := hm (m + 1) (by omega) (by simpa using hmc)
                  rw [netDepth_take_cons, braceDelta_other h1 h2] at h'
                  intro hcontra
                  apply h'
                  omega)
              rw [key]
              congr 1
              omega

theorem IsBlock.eq_append_rbrace {b : List Char} (hb : IsBlock b) :
    ∃ bl, b = bl ++ ['}'] ∧ b.length = bl.length + 1 := by
  obtain ⟨hh, h0, hpre⟩ := hb
  have hne : b ≠ [] := by
    intro h
    subst h
    simp at hh
  have hlen2 : 2 ≤ b.length := by
    match b, hne with
    | [c], _ =>
        have hc : c = '{' := by simpa using hh
        subst hc
        simp [netDepth, braceDelta] at h0
    | c :: c' :: t, _ => simp
  have key : b.dropLast ++ [b.getLast hne] = b := List.dropLast_append_getLast hne
  have hdl : b.dropLast = b.take (b.length - 1) := by
    rw [List.dropLast_eq_take]
  have hpos : 0 < netDepth b.dropLast := by
    rw [hdl]
    exact hpre _ (by omega) (by omega)
  have hsum : netDepth b = netDepth b.dropLast + braceDelta (b.getLast hne) := by
    conv_lhs => rw [← key]
    rw [netDepth_append]
    simp [netDepth]
  have hlast : b.getLast hne = '}' := braceDelta_eq_rbrace (by omega)
  refine ⟨b.dropLast, ?_, ?_⟩
  · rw [hlast] at key
    exact key.symm
  · conv_lhs => rw [← key]
    simp

theorem getD_append_length (l₁ : List Char) (x : Char) (l₂ : List Char) :
    (l₁ ++ x :: l₂).getD l₁.length ' ' = x := by
  induction l₁ with
  | nil => simp
  | cons c cs ih => simpa using ih

theorem findBraceEnd_block (b rest : List Char) (hb : IsBlock b) :
    findBraceEnd (b ++ rest) 0 0 = some b.length := by
  obtain ⟨bl, hbl, hlen⟩ := hb.eq_append_rbrace
  have hlenpos : 1 ≤ b.length := by omega
  have htake : (b ++ rest).take b.length = b := List.take_left b rest
  have := findBraceEnd_eq_some (b ++ rest) (b.length - 1) 0 0
    (by simp; omega)
    (by
      have : b ++ rest = bl ++ '}' :: rest := by rw [hbl]; simp
      rw [this]
      have : b.length - 1 = bl.length := by omega
      rw [this]
      exact getD_append_length bl '}' rest)
    (by
      have h1 : b.length - 1 + 1 = b.length := by omega
      rw [h1, htake, hb.2.1]
      ring)
    (fun m hm _ => by
      have hmb : m + 1 < b.length := by omega
      have htm : (b ++ rest).take (m + 1) = b.take (m + 1) :=
        List.take_append_of_le_length (by omega)
      rw [htm]
      have := hb.2.2 (m + 1) hmb (by omega)
      omega)
  rw [this]
  congr 1
  omega

theorem extract_of_block (text tail b rest : List Char) (hmk : afterMarker text = some tail)
    (hsplit : pyStrip tail = b ++ rest) (hb : IsBlock b) :
    extract_json_str text = some b := by
  unfold extract_json_str
  rw [hmk]
  simp only [hsplit, findBraceEnd_block b rest hb]
  rw [List.take_left b rest]

theorem extract_of_never_balance (text tail : List Char) (hmk : afterMarker text = some tail)
    (hnb : ∀ n, n < (pyStrip tail).length → (pyStrip tail).getD n ' ' = '}' →
      netDepth ((pyStrip tail).take (n + 1)) ≠ 0) :
    extract_json_str text = none := by
  have hnone : findBraceEnd (pyStrip tail) 0 0 = none := by
    refine findBraceEnd_eq_none _ 0 0 fun n hn hc => ?_
    have := hnb n hn hc
    omega
  unfold extract_json_str
  rw [hmk]
  simp only [hnone]

theorem parse_eq_of_extract {decode : List Char → Option APIRequest} {text : List Char}
    {res : Option (List Char)} (h : extract_json_str text = res) :
    parse_api_request_from_text decode text = res.bind decode := by
  unfold parse_api_request_from_text
  rw [h]

/-- C2: when the marker is followed (after stripping) by a bracket-balanced
block `b`, the parser cuts exactly `b` — up to the matching outer `}` and no
more — and hands exactly `b` to the JSON decoder; when the braces after the
marker never balance (no `}` ever brings the running depth back to zero), the
parser returns `None`. -/
theorem c2_parser_balance :
    (∀ text tail b rest, afterMarker text = some tail → pyStrip tail = b ++ rest →
      IsBlock b →
      extract_json_str text = some b ∧
      ∀ decode, parse_api_request_from_text decode text = decode b) ∧
    (∀ text tail, afterMarker text = some tail →
      (∀ n, n < (pyStrip tail).length → (pyStrip tail).getD n ' ' = '}' →
        netDepth ((pyStrip tail).take (n + 1)) ≠ 0) →
      ∀ decode, parse_api_request_from_text decode text = none) := by
  constructor
  · intro text tail b rest hmk hsplit hb
    have hext := extract_of_block text tail b rest hmk hsplit hb
    exact ⟨hext, fun decode => parse_eq_of_extract hext⟩
  · intro text tail hmk hnb decode
    exact parse_eq_of_extract (extract_of_never_balance text tail hmk hnb)

/-- Witness for C2: a nested block is extracted exactly, and a text whose
braces never close parses to `None`. -/
theorem c2_witness :
    extract_json_str "see API_CALL: \x7b\"url\": \x7b\"x\": 1\x7d\x7d bye".toList =
      some "\x7b\"url\": \x7b\"x\": 1\x7d\x7d".toList ∧
    parse_api_request_from_text (fun s => some { url := s })
      "API_CALL: \x7b \"open".toList = none := by
  constructor
  · exact (c2_parser_balance.1 "see API_CALL: \x7b\"url\": \x7b\"x\": 1\x7d\x7d bye".toList
      " \x7b\"url\": \x7b\"x\": 1\x7d\x7d bye".toList
      "\x7b\"url\": \x7b\"x\": 1\x7d\x7d".toList
      " bye".toList (by decide) (by decide) (by decide)).1
  · exact c2_parser_balance.2 "API_CALL: \x7b \"open".toList
      " \x7b \"open".toList (by decide) (by decide) _

theorem afterMarker_isSome_iff (text : List Char) :
    (afterMarker text).isSome = true ↔ ∃ pre post, text = pre ++ marker ++ post := by
  induction text with
  | nil =>
      simp only [afterMarker, Option.isSome_none]
      constructor
      · intro h
        exact absurd h (by decide)
      · rintro ⟨pre, post, h⟩
        have hlen := congrArg List.length h
        simp only [List.length_nil, List.length_append] at hlen
        have hm9 : marker.length = 9 := by decide
        omega
  | cons c cs ih =>
      rw [afterMarker]
      by_cases hp : marker.isPrefixOf (c :: cs)
      · rw [if_pos hp]
        simp only [Option.isSome_some, true_iff]
        obtain ⟨t, ht⟩ := List.isPrefixOf_iff_prefix.mp hp
        exact ⟨[], t, by simp [← ht]⟩
      · rw [if_neg hp]
        rw [ih]
        constructor
        · rintro ⟨pre, post, h⟩
          exact ⟨c :: pre, post, by simp [h]⟩
        · rintro ⟨pre, post, h⟩
          rcases pre with _ | ⟨p, ps⟩
          · exfalso
            apply hp
            rw [List.isPrefixOf_iff_prefix]
            exact ⟨post, by simpa using h.symm⟩
          · obtain ⟨hc, hcs⟩ : c = p ∧ cs = ps ++ (marker ++ post) := by simpa using h
            exact ⟨ps, post, by simpa using hcs⟩

/-- C8: `should_make_api_call` is true iff the literal marker `API_CALL:`
occurs anywhere in the text; it agrees with `parse_api_request_from_text ≠
none` whenever the marker is followed by a well-formed balanced block that the
JSON decoder accepts; and there is a text (marker present, braces never
closing) on which `should_make_api_call` is true while the parser returns
`None` for every decoder. -/
theorem c8_should_vs_parse :
    (∀ text, should_make_api_call text = true ↔ ∃ pre post, text = pre ++ marker ++ post) ∧
    (∀ decode text tail b rest r, afterMarker text = some tail →
      pyStrip tail = b ++ rest → IsBlock b → decode b = some r →
      should_make_api_call text = (parse_api_request_from_text decode text).isSome) ∧
    (should_make_api_call "API_CALL: \x7b oops".toList = true ∧
      ∀ decode, parse_api_request_from_text decode "API_CALL: \x7b oops".toList = none) := by
  refine ⟨afterMarker_isSome_iff, ?_, ?_, ?_⟩
  · intro decode text tail b rest r hmk hsplit hb hdec
    have hext := extract_of_block text tail b rest hmk hsplit hb
    have hparse : parse_api_request_from_text decode text = some r := by
      rw [parse_eq_of_extract hext]
      exact hdec
    rw [hparse]
    unfold should_make_api_call
    rw [hmk]
    rfl
  · decide
  · intro decode
    have hext : extract_json_str "API_CALL: \x7b oops".toList = none := by decide
    exact parse_eq_of_extract hext

/-- Witness for C8 at a concrete text whose marker is followed by valid JSON
(under a decoder that accepts the cut substring). -/
theorem c8_witness :
    should_make_api_call "do API_CALL: \x7b\"a\": 2\x7d now".toList =
      (parse_api_request_from_text (fun s => some { url := s })
        "do API_CALL: \x7b\"a\": 2\x7d now".toList).isSome := by
  exact c8_should_vs_parse.2.1 (fun s => some { url := s })
    "do API_CALL: \x7b\"a\": 2\x7d now".toList
    " \x7b\"a\": 2\x7d now".toList
    "\x7b\"a\": 2\x7d".toList
    " now".toList
    { url := "\x7b\"a\": 2\x7d".toList }
    (by decide) (by decide) (by decide) rfl

/-! ## Chat messages, graph state (app/graph/nodes.py lines 22-31) -/

/-- LangChain message kinds used by the graph
(`HumanMessage` / `AIMessage` / `SystemMessage`). -/
inductive Role where
  | human
  | ai
  | system
  deriving DecidableEq, Repr

/-- A chat message: role plus content string. -/
structure Message where
  role : Role
  content : List Char
  deriving DecidableEq, Repr

/-- The dict stored into `state["api_response"]` by `make_api_call`
(nodes.py lines 223-226 and 234-240); fields absent from the synthetic
parse-failure dict are `none`. -/
structure ApiCallRecord where
  status_code : Option Nat := none
  data : Option (List Char) := none
  text : Option (List Char) := none
  error : Option (List Char) := none
  success : Bool
  deriving DecidableEq, Repr

/-- The `GraphState` TypedDict (nodes.py lines 22-31); `total=False` fields
that may be absent are `Option`/defaulted. -/
structure GraphState where
  messages : List Message := []
  response : Option (List Char) := none
  metadata : List (List Char × List Char) := []
  session_id : Option (List Char) := none
  history : List Message := []
  api_request : Option (List Char) := none
  api_response : Option ApiCallRecord := none
  should_call_api : Option Bool := none
  deriving DecidableEq, Repr

/-- Python `{**d1, **d2}` / `d[k] = v`, modelled as an association list
observed through leftmost-first lookup: later writes are consed in front. -/
def dictUpdate (d1 d2 : List (List Char × List Char)) : List (List Char × List Char) :=
  d2 ++ d1

/-! ## app/services/llm.py -/

/-- What `llm.agenerate` returns on success (llm.py lines 106-119):
the generated text and the `llm_output` metadata. -/
structure LLMResult where
  response : List Char
  metadata : List (List Char × List Char) := []
  deriving DecidableEq, Repr

/-- One round of tenacity retrying: `attempt k` is the outcome of the k-th
invocation (attempts are numbered from 1); `fuel` is the number of retries
still allowed after the current attempt.  Returns the result together with
the number of attempts actually made: the first success returns immediately,
and the error of the last allowed attempt propagates. -/
def retryAux (attempt : Nat → Except (List Char) LLMResult) :
    Nat → Nat → Except (List Char) LLMResult × Nat
  | k, 0 => (attempt k, 1)
  | k, fuel + 1 =>
      match attempt k with
      | .ok a => (.ok a, 1)
      | .error _ =>
          let r := retryAux attempt (k + 1) fuel
          (r.1, r.2 + 1)

/-- tenacity `@retry(stop=stop_after_attempt(n))` around a call whose k-th
attempt gives `attempt k`. -/
def retryStopAfterAttempt (n : Nat) (attempt : Nat → Except (List Char) LLMResult) :
    Except (List Char) LLMResult × Nat :=
  retryAux attempt 1 (n - 1)

/-- tenacity `wait_exponential(multiplier, min, max)`: the sleep scheduled
after the n-th failed attempt is `multiplier * 2 ^ (n - 1)` clamped into
`[min, max]`. -/
def waitExponential (multiplier mn mx : Nat) (n : Nat) : Nat :=
  Nat.max mn (Nat.min (multiplier * 2 ^ (n - 1)) mx)

/-- `generate_llm_response` (llm.py lines 86-122): the decorated body invokes
the LLM once and re-raises any failure; the decorator
`@retry(stop=stop_after_attempt(3), wait=wait_exponential(multiplier=1, min=2, max=10))`
retries it up to 3 attempts.  `llm k` is the outcome of the k-th invocation of
`llm.agenerate` on the fixed message list. -/
def generate_llm_response (llm : Nat → Except (List Char) LLMResult) :
    Except (List Char) LLMResult × Nat :=
  retryStopAfterAttempt 3 llm

/-! ## Graph nodes (app/graph/nodes.py) -/

/-- `generate_response` (nodes.py lines 34-75).  With no messages it returns
the fixed response without touching the LLM (lines 51-53); on success it
appends the `AIMessage` and merges metadata (lines 57-72); on failure the
exception is re-raised (lines 73-75), so the result is `Except.error`.  The
second component counts the LLM invocation attempts made. -/
def generate_response (st : GraphState) (llm : Nat → Except (List Char) LLMResult) :
    Except (List Char) GraphState × Nat :=
  if st.messages = [] then
    (.ok { st with response := some "No messages to respond to.".toList }, 0)
  else
    match generate_llm_response llm with
    | (.ok r, c) =>
        (.ok { st with
          messages := st.messages ++ [{ role := .ai, content := r.response }]
          response := some r.response
          metadata := dictUpdate st.metadata r.metadata }, c)
    | (.error e, c) => (.error e, c)

/-- `MAX_MESSAGE_LENGTH` (nodes.py line 97). -/
def MAX_MESSAGE_LENGTH : Nat := 4000

/-- The suffix appended to truncated messages (nodes.py line 104). -/
def truncationSuffix : List Char := "... [truncated]".toList

/-- `preprocess_input` (nodes.py lines 78-113): every message longer than
`MAX_MESSAGE_LENGTH` is replaced by a copy whose content is the first 4000
characters plus `"... [truncated]"`. -/
def preprocess_input (st : GraphState) : GraphState :=
  { st with messages := st.messages.map fun m =>
      if MAX_MESSAGE_LENGTH < m.content.length then
        { m with content := m.content.take MAX_MESSAGE_LENGTH ++ truncationSuffix }
      else m }

/-- `postprocess_output` (nodes.py lines 116-130): sets
`state["metadata"]["postprocessed"] = True`. -/
def postprocess_output (st : GraphState) : GraphState :=
  { st with metadata := ("postprocessed".toList, "True".toList) :: st.metadata }

/-- `check_for_api_call` (nodes.py lines 179-201): `state.get("response", "")`
is scanned for the marker. -/
def check_for_api_call (st : GraphState) : GraphState :=
  if should_make_api_call (st.response.getD []) then
    { st with should_call_api := some true, api_request := some (st.response.getD []) }
  else
    { st with should_call_api := some false }

/-- The synthetic failure dict of nodes.py lines 223-226. -/
def parseFailureRecord : ApiCallRecord :=
  { error := some "Failed to parse API request".toList, success := false }

/-- `make_api_call` (nodes.py lines 204-261).  `decode` abstracts the JSON
decoding + validation step inside the parser, `outcome` the aiohttp transport
outcome of the call that would be made.  When parsing fails the synthetic
failure dict is stored and the state is returned as-is (lines 221-227);
otherwise the call result is stored and a suffix is appended to `response`
(lines 229-250). -/
def make_api_call (decode : List Char → Option APIRequest) (outcome : TransportOutcome)
    (st : GraphState) : GraphState :=
  match parse_api_request_from_text decode (st.api_request.getD []) with
  | none => { st with api_response := some parseFailureRecord }
  | some _req =>
      let resp := make_request outcome
      let st' := { st with api_response := some {
          status_code := some resp.status_code
          data := resp.data
          text := resp.text
          error := resp.error
          success := resp.success : ApiCallRecord } }
      if resp.success then
        { st' with response := some ((st'.response.getD []) ++
            ("\n\nAPI Response: ".toList ++ (resp.data.getD (resp.text.getD [])))) }
      else
        { st' with response := some ((st'.response.getD []) ++
            ("\n\nAPI Error: ".toList ++ (resp.error.getD "None".toList))) }

/-- `save_to_history` (nodes.py lines 264-314): all paths return the state
unchanged — the node only writes the latest human message and the response to
the database. -/
def save_to_history (st : GraphState) : GraphState :=
  st

/-! ## app/services/history.py -/

/-- A `ChatMessage` row (app/database/models.py), with `created_at` as a
numeric timestamp. -/
structure ChatMessageRow where
  session_id : List Char
  content : List Char
  message_type : List Char
  created_at : Nat
  deriving DecidableEq, Repr

/-- The persistence back end seen by `HistoryService`: the existing chat
session ids and the stored message rows. -/
structure ChatDB where
  sessions : List (List Char)
  rows : List ChatMessageRow
  deriving DecidableEq, Repr

/-- `ORDER BY created_at DESC` (history.py line 46). -/
def byCreatedAtDesc (a b : ChatMessageRow) : Prop :=
  b.created_at ≤ a.created_at

instance : DecidableRel byCreatedAtDesc := fun a b =>
  inferInstanceAs (Decidable (b.created_at ≤ a.created_at))

instance : IsTotal ChatMessageRow byCreatedAtDesc :=
  ⟨fun a b => Nat.le_total b.created_at a.created_at⟩

instance : IsTrans ChatMessageRow byCreatedAtDesc :=
  ⟨fun _ _ _ hab hbc => Nat.le_trans hbc hab⟩

/-- The query of history.py lines 44-46: the session's rows, ordered by
`created_at` descending, limited to `limit`. -/
def recentRowsDesc (db : ChatDB) (sid : List Char) (limit : Nat) : List ChatMessageRow :=
  ((db.rows.filter fun r => r.session_id = sid).insertionSort byCreatedAtDesc).take limit

/-- history.py lines 53-59: convert a row to a LangChain message; rows with
any other `message_type` are skipped. -/
def rowToMessage (r : ChatMessageRow) : Option Message :=
  if r.message_type = "human".toList then some { role := .human, content := r.content }
  else if r.message_type = "ai".toList then some { role := .ai, content := r.content }
  else if r.message_type = "system".toList then some { role := .system, content := r.content }
  else none

/-- `HistoryService.load_conversation_history` (history.py lines 19-66).
`db` is `.error` when the underlying session/queries raise (the `except`
branch, lines 64-66, returns `[]`); a missing session returns `[]`
(lines 39-41); otherwise the rows are fetched descending, reversed to
chronological order and converted (lines 43-62). -/
def load_conversation_history (db : Except (List Char) ChatDB) (sid : List Char)
    (limit : Nat) : List Message :=
  match db with
  | .error _ => []
  | .ok dbv =>
      if dbv.sessions.contains sid = false then []
      else ((recentRowsDesc dbv sid limit).reverse).filterMap rowToMessage

/-- `format_history_for_llm` (history.py lines 187-209). -/
def format_history_for_llm (msgs : List Message) : List Char :=
  if msgs = [] then "No previous conversation history.".toList
  else
    List.intercalate "\n".toList
      ("Previous conversation:".toList ::
        msgs.map fun m =>
          match m.role with
          | .human => "Human: ".toList ++ m.content
          | .ai => "Assistant: ".toList ++ m.content
          | .system => "System: ".toList ++ m.content)

/-- `load_conversation_history` graph node (nodes.py lines 133-176): with no
(or empty, Python-falsy) `session_id` the history is set empty; otherwise the
service is queried with `limit=10` and, when history is non-empty, a
`SystemMessage` with the formatted history is prepended to `messages`
(lines 160-168). -/
def load_history_node (db : Except (List Char) ChatDB) (st : GraphState) : GraphState :=
  match st.session_id with
  | none => { st with history := [] }
  | some sid =>
      if sid = [] then { st with history := [] }
      else
        if load_conversation_history db sid 10 = [] then
          { st with history := load_conversation_history db sid 10 }
        else
          { st with
              history := load_conversation_history db sid 10
              messages :=
                { role := .system,
                  content := "Context: ".toList ++
                    format_history_for_llm (load_conversation_history db sid 10) } :: st.messages }

/-- C10: entered with an empty `messages` list, the generate step makes zero
LLM invocations and returns the state with `response` set to the fixed text
`"No messages to respond to."` and everything else unchanged. -/
theorem c10_generate_empty_messages (st : GraphState)
    (llm : Nat → Except (List Char) LLMResult) (h : st.messages = []) :
    generate_response st llm =
      (.ok { st with response := some "No messages to respond to.".toList }, 0) := by
  unfold generate_response
  rw [if_pos h]

/-- Witness for C10 on the default (empty) state with an always-failing LLM. -/
theorem c10_witness :
    generate_response {} (fun _ => .error "unused".toList) =
      (.ok { response := some "No messages to respond to.".toList }, 0) :=
  c10_generate_empty_messages {} (fun _ => .error "unused".toList) rfl

/-- C4: when every LLM invocation raises, the generate step makes exactly 3
attempts (tenacity `stop_after_attempt(3)`), the final error propagates out of
the node (no `.ok` state — hence no assistant message is ever appended), and
the configured backoff `wait_exponential(multiplier=1, min=2, max=10)` starts
at 2 seconds and is capped at 10 seconds. -/
theorem c4_generate_retry_exhaustion (st : GraphState)
    (llm : Nat → Except (List Char) LLMResult) (err : Nat → List Char)
    (hne : st.messages ≠ []) (hfail : ∀ k, llm k = .error (err k)) :
    generate_response st llm = (.error (err 3), 3) ∧
    (∀ res c, generate_response st llm ≠ (.ok res, c)) ∧
    waitExponential 1 2 10 1 = 2 ∧
    (∀ n, waitExponential 1 2 10 n ≤ 10) := by
  have hretry : generate_llm_response llm = (.error (err 3), 3) := by
    simp [generate_llm_response, retryStopAfterAttempt, retryAux, hfail]
  have hgen : generate_response st llm = (.error (err 3), 3) := by
    unfold generate_response
    rw [if_neg hne, hretry]
  refine ⟨hgen, ?_, by decide, ?_⟩
  · intro res c hcontra
    rw [hgen] at hcontra
    simp at hcontra
  · intro n
    unfold waitExponential
    exact Nat.max_le.mpr ⟨by norm_num, Nat.min_le_right _ _⟩

/-- Witness for C4: one message, an LLM that always raises. -/
theorem c4_witness :
    generate_response { messages := [{ role := .human, content := "hi".toList }] }
      (fun _ => .error "boom".toList) = (.error "boom".toList, 3) :=
  (c4_generate_retry_exhaustion
    { messages := [{ role := .human, content := "hi".toList }] }
    (fun _ => .error "boom".toList) (fun _ => "boom".toList)
    (by simp) (fun _ => rfl)).1

/-- A state whose stored `api_request` text has the marker but an unclosed
brace, so parsing fails. -/
def c3State : GraphState :=
  { response := some "hello".toList, api_request := some "API_CALL: \x7b".toList }

/-- Counterexample to C3 as stated: when parsing of the stored text fails,
`make_api_call` stores the synthetic failure dict but `response` is returned
exactly unchanged — no `"\n\nAPI Error: …"` suffix is appended (the claim says
one is). -/
theorem c3_counterexample :
    (make_api_call (fun s => some { url := s }) (.clientError []) c3State).response =
      some "hello".toList ∧
    (make_api_call (fun s => some { url := s }) (.clientError []) c3State).api_response =
      some parseFailureRecord ∧
    (make_api_call (fun s => some { url := s }) (.clientError []) c3State).response ≠
      some ("hello".toList ++
        ("\n\nAPI Error: ".toList ++ "Failed to parse API request".toList)) := by
  refine ⟨?_, ?_, ?_⟩ <;> decide

/-- C3 (amended): if parsing of the stored `api_request` text fails, the step
records the synthetic failed result `{"error": "Failed to parse API request",
"success": False}` and returns the state otherwise unchanged — in particular
`response` is left exactly as it was, with no suffix appended. -/
theorem c3_parse_failure_amended (decode : List Char → Option APIRequest)
    (outcome : TransportOutcome) (st : GraphState)
    (h : parse_api_request_from_text decode (st.api_request.getD []) = none) :
    make_api_call decode outcome st = { st with api_response := some parseFailureRecord } := by
  unfold make_api_call
  rw [h]

/-- Witness for the amended C3 on the concrete unparseable state. -/
theorem c3_witness :
    make_api_call (fun _ => none) (.unexpectedError []) c3State =
      { c3State with api_response := some parseFailureRecord } :=
  c3_parse_failure_amended (fun _ => none) (.unexpectedError []) c3State (by decide)

/-- A message one character over `MAX_MESSAGE_LENGTH`. -/
def longMessage : Message :=
  { role := .human, content := List.replicate 4001 'a' }

/-- What `preprocess_input` turns `longMessage` into. -/
def truncatedLong : Message :=
  { role := .human,
    content := longMessage.content.take MAX_MESSAGE_LENGTH ++ truncationSuffix }

/-- Counterexample to C7 as stated: `preprocess_input` replaces a 4001-character
message with a truncated copy, so that input message is no longer present in
the output `messages` (the list keeps its length but does not keep every
input message). -/
theorem c7_counterexample :
    longMessage ∉ (preprocess_input { messages := [longMessage] }).messages := by
  intro hmem
  have h4001 : longMessage.content.length = 4001 := by
    show (List.replicate 4001 'a').length = 4001
    rw [List.length_replicate]
  have hcond : MAX_MESSAGE_LENGTH < longMessage.content.length := by
    rw [h4001]
    decide
  have hout : preprocess_input { messages := [longMessage] } =
      { messages := [truncatedLong] } := by
    unfold preprocess_input
    rw [List.map_cons, List.map_nil, if_pos hcond]
    rfl
  rw [hout] at hmem
  have hmem' : longMessage = truncatedLong := by
    simpa using hmem
  have hlen := congrArg (fun m : Message => m.content.length) hmem'
  simp only [truncatedLong, List.length_append, List.length_take] at hlen
  have hts : truncationSuffix.length = 15 := by decide
  have hmax : MAX_MESSAGE_LENGTH = 4000 := rfl
  rw [hts, h4001, hmax] at hlen
  omega

/-- C7 (amended): in every node the `messages` list never shrinks in length;
every node except `preprocess_input` keeps each input message (the list only
changes by `load_conversation_history` prepending a history system message and
`generate_response` appending the assistant message), and `preprocess_input`
keeps the list exactly when no message exceeds `MAX_MESSAGE_LENGTH`
characters — otherwise it replaces overlong messages with truncated copies. -/
theorem c7_messages_never_shrink :
    (∀ st, (preprocess_input st).messages.length = st.messages.length) ∧
    (∀ db st, (load_history_node db st).messages = st.messages ∨
      (load_history_node db st).messages =
        { role := Role.system,
          content := "Context: ".toList ++
            format_history_for_llm
              (load_conversation_history db (st.session_id.getD []) 10) } :: st.messages) ∧
    (∀ st llm res c, generate_response st llm = (.ok res, c) →
      res.messages = st.messages ∨
      res.messages = st.messages ++
        [{ role := Role.ai, content := res.response.getD [] }]) ∧
    (∀ st, (check_for_api_call st).messages = st.messages) ∧
    (∀ decode outcome st, (make_api_call decode outcome st).messages = st.messages) ∧
    (∀ st, (postprocess_output st).messages = st.messages) ∧
    (∀ st, (save_to_history st).messages = st.messages) ∧
    (∀ st, (∀ m ∈ st.messages, m.content.length ≤ MAX_MESSAGE_LENGTH) →
      preprocess_input st = st) := by
  refine ⟨?_, ?_, ?_, ?_, ?_, ?_, ?_, ?_⟩
  · intro st
    simp [preprocess_input]
  · intro db st
    obtain ⟨msgs, resp, md, sess, hist, areq, aresp, sca⟩ := st
    unfold load_history_node
    rcases sess with _ | sid
    · exact Or.inl rfl
    · dsimp only
      by_cases hsid : sid = []
      · rw [if_pos hsid]
        exact Or.inl rfl
      · rw [if_neg hsid]
        by_cases hh : load_conversation_history db sid 10 = []
        · rw [if_pos hh]
          exact Or.inl rfl
        · rw [if_neg hh]
          exact Or.inr rfl
  · intro st llm res c h
    unfold generate_response at h
    by_cases hm : st.messages = []
    · rw [if_pos hm] at h
      simp only [Prod.mk.injEq, Except.ok.injEq] at h
      obtain ⟨hok, -⟩ := h
      exact Or.inl (by rw [← hok])
    · rw [if_neg hm] at h
      rcases hgen : generate_llm_response llm with ⟨r, c'⟩
      rw [hgen] at h
      rcases r with a | e
      · simp at h
      · simp only [Prod.mk.injEq, Except.ok.injEq] at h
        obtain ⟨hok, -⟩ := h
        refine Or.inr ?_
        rw [← hok]
        rfl
  · intro st
    unfold check_for_api_call
    split <;> rfl
  · intro decode outcome st
    unfold make_api_call
    split
    · rfl
    · dsimp only
      split <;> rfl
  · intro st
    rfl
  · intro st
    rfl
  · intro st h
    have hcg : ∀ m ∈ st.messages,
        (if MAX_MESSAGE_LENGTH < m.content.length then
          { m with content := m.content.take MAX_MESSAGE_LENGTH ++ truncationSuffix }
        else m) = id m := by
      intro m hmem
      have hle := h m hmem
      simp [Nat.not_lt.mpr hle]
    unfold preprocess_input
    rw [List.map_congr_left hcg, List.map_id]

/-- The one-short-message state used to witness the amended C7. -/
def shortState : GraphState :=
  { messages := [{ role := .human, content := "hi".toList }] }

/-- The state produced by a successful generate step on `shortState`. -/
def genOkState : GraphState :=
  { messages := [{ role := .human, content := "hi".toList },
                 { role := .ai, content := "ok".toList }]
    response := some "ok".toList }

/-- Witness for C7 (amended) on concrete states: a successful generate step
changes `messages` only by appending the assistant message, and
`preprocess_input` is the identity on short messages. -/
theorem c7_witness :
    (genOkState.messages = shortState.messages ∨
      genOkState.messages = shortState.messages ++
        [{ role := Role.ai, content := genOkState.response.getD [] }]) ∧
    preprocess_input shortState = shortState := by
  constructor
  · exact c7_messages_never_shrink.2.2.1 shortState
      (fun _ => .ok { response := "ok".toList }) genOkState 1 rfl
  · exact c7_messages_never_shrink.2.2.2.2.2.2.2 shortState (by decide)

/-- C5: `load_conversation_history` returns the most recent `limit` messages
of the session — fetched by `created_at` descending, cut to `limit`, then
reversed — in non-decreasing `created_at` order, for any stored rows (any
insertion order) and any limit; a missing session yields `[]` rather than an
error, and a persistence failure during load also yields `[]`. -/
theorem c5_load_history :
    (∀ db sid limit, ((recentRowsDesc db sid limit).reverse).Pairwise
      (fun a b => a.created_at ≤ b.created_at)) ∧
    (∀ db sid limit, (recentRowsDesc db sid limit).length ≤ limit) ∧
    (∀ db sid limit r r', r ∈ recentRowsDesc db sid limit →
      r' ∈ db.rows.filter (fun x => x.session_id = sid) →
      r' ∉ recentRowsDesc db sid limit → r'.created_at ≤ r.created_at) ∧
    (∀ e sid limit, load_conversation_history (.error e) sid limit = []) ∧
    (∀ db sid limit, db.sessions.contains sid = false →
      load_conversation_history (.ok db) sid limit = []) ∧
    (∀ db sid limit, db.sessions.contains sid = true →
      load_conversation_history (.ok db) sid limit =
        ((recentRowsDesc db sid limit).reverse).filterMap rowToMessage) := by
  have hsorted : ∀ (db : ChatDB) (sid : List Char),
      ((db.rows.filter fun x => x.session_id = sid).insertionSort byCreatedAtDesc).Pairwise
        byCreatedAtDesc :=
    fun db sid => List.sorted_insertionSort byCreatedAtDesc _
  refine ⟨?_, ?_, ?_, ?_, ?_, ?_⟩
  · intro db sid limit
    unfold recentRowsDesc
    rw [List.pairwise_reverse]
    exact List.Pairwise.sublist (List.take_sublist limit _) (hsorted db sid)
  · intro db sid limit
    unfold recentRowsDesc
    rw [List.length_take]
    exact Nat.min_le_left _ _
  · intro db sid limit r r' hr hr' hnr
    unfold recentRowsDesc at hr hnr
    have hmem : r' ∈ (db.rows.filter fun x =>
        x.session_id = sid).insertionSort byCreatedAtDesc :=
      (List.mem_insertionSort byCreatedAtDesc).mpr hr'
    have hsplit := List.take_append_drop limit
      ((db.rows.filter fun x => x.session_id = sid).insertionSort byCreatedAtDesc)
    have hdrop : r' ∈ ((db.rows.filter fun x =>
        x.session_id = sid).insertionSort byCreatedAtDesc).drop limit := by
      rcases List.mem_append.mp (by rw [hsplit]; exact hmem) with h | h
      · exact absurd h hnr
      · exact h
    have hp := hsorted db sid
    rw [← hsplit] at hp
    exact (List.pairwise_append.mp hp).2.2 r hr r' hdrop
  · intro e sid limit
    rfl
  · intro db sid limit h
    unfold load_conversation_history
    dsimp only
    rw [h, if_pos rfl]
  · intro db sid limit h
    unfold load_conversation_history
    dsimp only
    rw [h, if_neg (by decide)]

/-- A concrete store: session `s1` has three rows inserted out of order, and
an unrelated session `s2` has one row. -/
def historyDB : ChatDB :=
  { sessions := ["s1".toList]
    rows := [{ session_id := "s1".toList, content := "m3".toList,
               message_type := "ai".toList, created_at := 30 },
             { session_id := "s1".toList, content := "m1".toList,
               message_type := "human".toList, created_at := 10 },
             { session_id := "s2".toList, content := "x".toList,
               message_type := "human".toList, created_at := 99 },
             { session_id := "s1".toList, content := "m2".toList,
               message_type := "human".toList, created_at := 20 }] }

/-- Witness for C5 on `historyDB`: missing session gives `[]`, an existing
session gives the reversed descending fetch, and with `limit = 2` the dropped
oldest row is older than every returned row. -/
theorem c5_witness :
    load_conversation_history (.ok historyDB) "nope".toList 10 = [] ∧
    load_conversation_history (.ok historyDB) "s1".toList 10 =
      ((recentRowsDesc historyDB "s1".toList 10).reverse).filterMap rowToMessage ∧
    ({ session_id := "s1".toList, content := "m1".toList,
       message_type := "human".toList, created_at := 10 } : ChatMessageRow).created_at ≤
      ({ session_id := "s1".toList, content := "m3".toList,
         message_type := "ai".toList, created_at := 30 } : ChatMessageRow).created_at := by
  refine ⟨?_, ?_, ?_⟩
  · exact c5_load_history.2.2.2.2.1 historyDB "nope".toList 10 (by decide)
  · exact c5_load_history.2.2.2.2.2 historyDB "s1".toList 10 (by decide)
  · exact c5_load_history.2.2.1 historyDB "s1".toList 2
      { session_id := "s1".toList, content := "m3".toList,
        message_type := "ai".toList, created_at := 30 }
      { session_id := "s1".toList, content := "m1".toList,
        message_type := "human".toList, created_at := 10 }
      (by decide) (by decide) (by decide)

/-! ## app/config.py and app/services/webhook.py -/

/-- The fields declared on `Settings` (config.py lines 5-63), in declaration
order.  pydantic `BaseSettings` raises `AttributeError` for any other
attribute name. -/
def settingsFieldNames : List String :=
  ["API_V1_STR", "PROJECT_NAME", "VERSION", "DESCRIPTION", "BACKEND_CORS_ORIGINS",
   "DATABASE_URL", "SECRET_KEY", "ALGORITHM", "ACCESS_TOKEN_EXPIRE_MINUTES",
   "REFRESH_TOKEN_EXPIRE_DAYS", "ADMIN_EMAIL", "ADMIN_PASSWORD",
   "OPENAI_API_KEY", "DEEPSEEK_API_KEY", "ANTHROPIC_API_KEY", "LLM_MODEL",
   "LLM_TEMPERATURE", "LLM_MAX_TOKENS", "LLM_PROVIDER", "LOG_LEVEL",
   "WEBHOOK_SECRET", "WEBHOOK_TIMEOUT", "LANGCHAIN_TRACING_V2",
   "LANGCHAIN_API_KEY", "LANGCHAIN_PROJECT", "LANGCHAIN_ENDPOINT",
   "METRICS_ENABLED", "METRICS_PORT", "METRICS_PATH", "HEALTH_CHECK_ENABLED",
   "HEALTH_CHECK_PATH", "HEALTH_CHECK_INTERVAL", "TRACING_ENABLED",
   "TRACING_ENDPOINT", "TRACING_SERVICE_NAME"]

/-- Python attribute access on the `settings` instance (config.py line 66):
`true` iff the name is a declared field. -/
def settingsHasAttr (name : String) : Bool :=
  settingsFieldNames.contains name

/-- Evaluation of the `@retry(...)` decorator arguments of webhook.py lines
9-12 at module import time: it reads `settings.WEBHOOK_RETRY_ATTEMPTS` and
`settings.WEBHOOK_RETRY_DELAY`, raising `AttributeError` when the field is not
declared on `Settings`. -/
def webhook_retry_decorator_init : Except String Unit :=
  if settingsHasAttr "WEBHOOK_RETRY_ATTEMPTS" = false then
    .error "AttributeError: Settings object has no field WEBHOOK_RETRY_ATTEMPTS"
  else if settingsHasAttr "WEBHOOK_RETRY_DELAY" = false then
    .error "AttributeError: Settings object has no field WEBHOOK_RETRY_DELAY"
  else .ok ()

/-- C6 (code bug): the retry configuration `send_webhook_response` relies on
does not exist — `Settings` declares neither `WEBHOOK_RETRY_ATTEMPTS` nor
`WEBHOOK_RETRY_DELAY` (while the adjacent webhook fields do exist), so
constructing the `@retry` decorator at import of webhook.py raises
`AttributeError` and no delivery (let alone a retried one) can run. -/
theorem c6_webhook_settings_missing :
    webhook_retry_decorator_init =
      .error "AttributeError: Settings object has no field WEBHOOK_RETRY_ATTEMPTS" ∧
    settingsHasAttr "WEBHOOK_RETRY_ATTEMPTS" = false ∧
    settingsHasAttr "WEBHOOK_RETRY_DELAY" = false ∧
    settingsHasAttr "WEBHOOK_TIMEOUT" = true ∧
    settingsHasAttr "WEBHOOK_SECRET" = true := by
  refine ⟨rfl, ?_, ?_, ?_, ?_⟩ <;> decide

/-! ## app/utils/tracking.py -/

/-- An entry of `RequestTracker._requests` (a `WebhookStatusResponse` keyed by
`str(track_id)`), with `timestamp` as seconds. -/
structure TrackedRequest where
  track_id : String
  status : String
  timestamp : Nat
  deriving DecidableEq, Repr

/-- `RequestTracker.add_request` (tracking.py lines 21-34): store (or
overwrite) the entry under `str(track_id)` with the current time. -/
def add_request (tracker : List TrackedRequest) (tid status : String) (now : Nat) :
    List TrackedRequest :=
  (tracker.filter fun r => r.track_id ≠ tid) ++
    [{ track_id := tid, status := status, timestamp := now }]

/-- `RequestTracker.cleanup_old_requests` (tracking.py lines 68-89).  Line 77
evaluates `datetime.utcnow() - datetime.timedelta(hours=max_age_hours)`, but
`datetime` names the class imported by `from datetime import datetime`
(line 3), which has no attribute `timedelta`; the line therefore raises
`AttributeError` unconditionally — before the sweep loop of lines 78-89 ever
runs — for every tracker state and every `max_age_hours`. -/
def cleanup_old_requests (tracker : List TrackedRequest) (now maxAgeHours : Nat) :
    Except String (List TrackedRequest × Nat) :=
  .error "AttributeError: type object datetime.datetime has no attribute timedelta"

/-- The sweep that lines 77-89 of tracking.py intend (with the cutoff computed
from a correct `timedelta(hours=max_age_hours)`): drop every entry whose
timestamp is strictly older than `now - maxAgeHours`, and return the remaining
entries together with the number removed. -/
def cleanup_old_requests_intended (tracker : List TrackedRequest) (now maxAgeHours : Nat) :
    List TrackedRequest × Nat :=
  ((tracker.filter fun r => ¬ r.timestamp < now - maxAgeHours * 3600),
    (tracker.filter fun r => r.timestamp < now - maxAgeHours * 3600).length)

/-- C9 (code bug): register an entry at time 100 and sweep with
`max_age_hours = 0` at time 101 — the code raises `AttributeError` (removing
nothing and returning no count), while the intended sweep would remove the
entry and report 1 removed. -/
theorem c9_sweep_raises :
    cleanup_old_requests (add_request [] "t1" "processing" 100) 101 0 =
      .error "AttributeError: type object datetime.datetime has no attribute timedelta" ∧
    cleanup_old_requests_intended (add_request [] "t1" "processing" 100) 101 0 = ([], 1) := by
  constructor
  · rfl
  · decide

end ChatBotSpec
